import Mathlib

/-
Shallow embedding of the PyCG analysis driver (pycg/pycg.py) and its two
load-bearing subsystems (pycg/machinery/callgraph.py, pycg/machinery/imports.py).

Python dicts are modelled as association lists with Python's update-in-place /
append-on-new-key semantics (`alistSet`), Python sets as `Finset String`, and
Python exceptions as `Except` results (or as a `state × Option error` pair when
the mutations performed before the raise must be observable, matching Python's
in-place mutation semantics).
-/

namespace PyCG

/-- Lookup in an association list, first binding wins (Python dict access). -/
def alistLookup {α : Type} : List (String × α) → String → Option α
  | [], _ => none
  | (k, v) :: rest, key => if k = key then some v else alistLookup rest key

/-- Python dict assignment `d[k] = v`: update in place if the key is present,
append at the end otherwise (insertion order preserved). -/
def alistSet {α : Type} : List (String × α) → String → α → List (String × α)
  | [], key, v => [(key, v)]
  | (k, w) :: rest, key, v =>
    if k = key then (key, v) :: rest else (k, w) :: alistSet rest key v

/-- Keys of an association list are pairwise distinct (every reachable Python
dict satisfies this). -/
def nodupKeys {α : Type} (l : List (String × α)) : Prop :=
  (l.map Prod.fst).Nodup

/-- Worker for `pySplitChar`, carrying the reversed current chunk. -/
def pySplitCharGo (sep : Char) : List Char → List Char → List String
  | [], acc => [String.mk acc.reverse]
  | c :: rest, acc =>
    if c = sep then String.mk acc.reverse :: pySplitCharGo sep rest []
    else pySplitCharGo sep rest (c :: acc)

/-- Python's `str.split(sep)` for a one-character separator (all separators
in the source are `"."`): `"a.b"` gives `["a","b"]`, `""` gives `[""]`,
`".x"` gives `["","x"]`. -/
def pySplitChar (sep : Char) (s : String) : List String :=
  pySplitCharGo sep s.data []

/-- Python's `sep.join` for separator `"."`. -/
def pyJoinDot : List String → String
  | [] => ""
  | [x] => x
  | x :: y :: rest => x ++ "." ++ pyJoinDot (y :: rest)

/-- Python's `str.endswith`. -/
def pyEndsWith (s : String) (suffix : String) : Bool :=
  List.isSuffixOf suffix.data s.data

theorem alistLookup_of_mem {α : Type} {l : List (String × α)} {k : String} {v : α}
    (hnd : nodupKeys l) (hmem : (k, v) ∈ l) : alistLookup l k = some v := by
  induction l with
  | nil => cases hmem
  | cons hd tl ih =>
    obtain ⟨k0, v0⟩ := hd
    simp only [nodupKeys, List.map_cons, List.nodup_cons] at hnd
    rcases List.mem_cons.mp hmem with heq | htl
    · cases heq
      simp [alistLookup]
    · have hne : k0 ≠ k := by
        intro h
        exact hnd.1 (h ▸ (List.mem_map.mpr ⟨(k, v), htl, rfl⟩))
      simp only [alistLookup, if_neg hne]
      exact ih hnd.2 htl

theorem alistSet_self {α : Type} {l : List (String × α)} {k : String} {v : α}
    (h : alistLookup l k = some v) : alistSet l k v = l := by
  induction l with
  | nil => simp [alistLookup] at h
  | cons hd tl ih =>
    obtain ⟨k0, v0⟩ := hd
    by_cases hk : k0 = k
    · subst hk
      rw [alistLookup, if_pos rfl] at h
      injection h with h
      subst h
      simp [alistSet]
    · simp only [alistLookup, if_neg hk] at h
      simp [alistSet, if_neg hk, ih h]

theorem alistLookup_set_ne {α : Type} (l : List (String × α)) {k k2 : String} (v : α)
    (h : k ≠ k2) : alistLookup (alistSet l k v) k2 = alistLookup l k2 := by
  induction l with
  | nil => simp [alistSet, alistLookup, h]
  | cons hd tl ih =>
    obtain ⟨k0, v0⟩ := hd
    by_cases hk : k0 = k
    · subst hk
      simp [alistSet, alistLookup, h]
    · simp only [alistSet, if_neg hk, alistLookup]
      by_cases hk2 : k0 = k2
      · simp [hk2]
      · simp [hk2, ih]

theorem alistLookup_set_self {α : Type} (l : List (String × α)) (k : String) (v : α) :
    alistLookup (alistSet l k v) k = some v := by
  induction l with
  | nil => simp [alistSet, alistLookup]
  | cons hd tl ih =>
    obtain ⟨k0, v0⟩ := hd
    by_cases hk : k0 = k
    · subst hk
      simp [alistSet, alistLookup]
    · simp [alistSet, if_neg hk, alistLookup, hk, ih]

/- ===================== machinery/callgraph.py ===================== -/

/-- One entry of the extended-edge provenance log (`cg_extended[src]['dsts']`). -/
structure EdgeRec where
  dst : String
  lineno : Int
  mod : String
  ext_mod : String
deriving DecidableEq, Repr

/-- Value of `cg_extended[name]`: the provenance log plus `meta.modname`. -/
structure ExtEntry where
  dsts : List EdgeRec
  modname : String
deriving DecidableEq, Repr

/-- The `CallGraph` object: `cg` (deduplicated adjacency), `cg_extended`
(provenance log and metadata), `modnames` (module registry).  The entrypoint
fields are not needed by any claim and are omitted. -/
structure CallGraph where
  cg : List (String × Finset String)
  cg_extended : List (String × ExtEntry)
  modnames : List (String × String)
deriving DecidableEq

def CallGraph.empty : CallGraph := { cg := [], cg_extended := [], modnames := [] }

/-- Errors raised by CallGraph operations: `CallGraphError`, or a `KeyError`
from reading a dict key that is absent (only possible in unreachable states). -/
inductive CGErr where
  | callGraphError (msg : String)
  | keyError
deriving DecidableEq, Repr

/-- `CallGraph.add_node`.  The name must be a non-empty string; a fresh name
creates all three entries; then, when the registry module is falsy it is
overwritten, otherwise the extended metadata is backfilled if falsy. -/
def add_node (g : CallGraph) (name : String) (modname : String) :
    Except CGErr CallGraph :=
  if name = "" then .error (.callGraphError "Empty node name")
  else
    let g1 :=
      if (alistLookup g.cg name).isNone then
        { cg := alistSet g.cg name ∅
          cg_extended := alistSet g.cg_extended name { dsts := [], modname := modname }
          modnames := alistSet g.modnames name modname }
      else g
    match alistLookup g1.modnames name with
    | none => .error .keyError
    | some m =>
      if m = "" then
        .ok { g1 with modnames := alistSet g1.modnames name modname }
      else
        match alistLookup g1.cg_extended name with
        | none => .error .keyError
        | some e =>
          if e.modname = "" then
            let e2 := { e with modname := modname }
            .ok { g1 with cg_extended := alistSet g1.cg_extended name e2 }
          else .ok g1

/-- `CallGraph.add_edge`.  Python mutates the object in place, so on an
exception the mutations already performed persist: the result is the state at
the moment of the raise paired with the raised error (`none` = no exception). -/
def add_edge (g : CallGraph) (src : String) (dest : String) (lineno : Int)
    (mod : String) (ext_mod : String) : CallGraph × Option CGErr :=
  match add_node g src mod with
  | .error e => (g, some e)
  | .ok g1 =>
    match add_node g1 dest "" with
    | .error e => (g1, some e)
    | .ok g2 =>
      match alistLookup g2.cg src with
      | none => (g2, some .keyError)
      | some s =>
        let g3 := { g2 with cg := alistSet g2.cg src (insert dest s) }
        match alistLookup g3.cg_extended src with
        | none => (g3, some .keyError)
        | some e =>
          let e2 := { e with dsts := e.dsts ++ [⟨dest, lineno, mod, ext_mod⟩] }
          ({ g3 with cg_extended := alistSet g3.cg_extended src e2 }, none)

/-- `CallGraph.get_modules`. -/
def get_modules (g : CallGraph) : List (String × String) := g.modnames

/-- `CallGraph.get_extended`. -/
def get_extended (g : CallGraph) : List (String × ExtEntry) := g.cg_extended

/-- `CallGraph.get`. -/
def CallGraph.get (g : CallGraph) : List (String × Finset String) := g.cg

/- ===================== machinery/imports.py ===================== -/

/-- A node of the import graph: `{"filename": ..., "imports": set()}`. -/
structure INode where
  filename : String
  imports : Finset String
deriving DecidableEq

/-- Error raised by ImportManager graph mutation (`ImportManagerError`). -/
inductive IMErr where
  | importManagerError (msg : String)
deriving DecidableEq, Repr

/-- The `ImportManager` object.  `old_path_hooks` / `old_path` store the
process-wide lookup state saved by `install_hooks` (modelled in the driver
section below). -/
structure ImportManager where
  import_graph : List (String × INode)
  current_module : String
  input_file : String
  mod_dir : Option String
  old_path_hooks : Option (List Unit)
  old_path : Option (List String)
deriving DecidableEq

def ImportManager.init : ImportManager :=
  { import_graph := [], current_module := "", input_file := "",
    mod_dir := none, old_path_hooks := none, old_path := none }

/-- `ImportManager.get_node`. -/
def get_node (im : ImportManager) (name : String) : Option INode :=
  alistLookup im.import_graph name

/-- `ImportManager.create_node`: rejects an empty name and re-creation;
otherwise inserts a node with empty filename and empty import set.
(The Python `isinstance(name, str)` guard is vacuous here since the
embedding types the name as a string.) -/
def create_node (im : ImportManager) (name : String) : Except IMErr ImportManager :=
  if name = "" then .error (.importManagerError "Invalid node name")
  else if (get_node im name).isSome then
    .error (.importManagerError "Can't create a node a second time")
  else
    .ok { im with import_graph := alistSet im.import_graph name ⟨"", ∅⟩ }

/-- `ImportManager._get_module_path`. -/
def _get_module_path (im : ImportManager) : String := im.current_module

/-- `ImportManager.create_edge`: adds `dest` to the import set of the node of
the current module; errors if `dest` is empty or the current module has no
node. -/
def create_edge (im : ImportManager) (dest : String) : Except IMErr ImportManager :=
  if dest = "" then .error (.importManagerError "Invalid node name")
  else
    match get_node im (_get_module_path im) with
    | none => .error (.importManagerError "Can't add edge to a non existing node")
    | some node =>
      let node2 := { node with imports := insert dest node.imports }
      .ok { im with import_graph := alistSet im.import_graph (_get_module_path im) node2 }

/-- `ImportManager.set_current_mod` (the `os.path.abspath` call on the file
name is external; the caller passes the absolute path directly). -/
def set_current_mod (im : ImportManager) (name : String) (fname : String) :
    ImportManager :=
  { im with current_module := name, input_file := fname }

/-- `ImportManager._is_init_file`. -/
def _is_init_file (im : ImportManager) : Bool :=
  pyEndsWith im.input_file "__init__.py"

/-- Python's negative-stop slice `l[:-k]`: for `k = 0` this is `l[:0] = []`,
otherwise the list without its last `k` elements. -/
def pySliceNeg (l : List String) (k : Nat) : List String :=
  if k = 0 then [] else l.take (l.length - k)

/-- Worker for `pyInStr`: does `needle` occur at some position of the list? -/
def pyInStrGo (needle : List Char) : List Char → Bool
  | [] => needle.isPrefixOf []
  | c :: rest => needle.isPrefixOf (c :: rest) || pyInStrGo needle rest

/-- Python's substring test `needle in hay` on strings (empty needle is
always contained). -/
def pyInStr (needle : String) (hay : String) : Bool :=
  pyInStrGo needle.data hay.data

/-- `ImportManager._handle_import_level`: split the current module path on
dots, reject a level greater than the number of components (`ImportError`,
modelled as `.error ()`), build `mod_name` by prefixing one dot per level,
and strip trailing components — one fewer for a package-initializer module. -/
def _handle_import_level (im : ImportManager) (name : String) (level : Nat) :
    Except Unit (String × String) :=
  let package := pySplitChar '.' (_get_module_path im)
  if level > package.length then .error ()
  else
    let mod_name := String.mk (List.replicate level '.') ++ name
    let package2 :=
      if _is_init_file im && decide (level ≥ 1) then
        if level ≠ 1 then pySliceNeg package (level - 1) else package
      else pySliceNeg package level
    .ok (mod_name, pyJoinDot package2)

/-- Modelled from the spec: `pycg.utils.join_ns` is imported by
machinery/imports.py but its source is not in scope; the spec describes it as
joining a name "directly under the package namespace", i.e. dotted
concatenation of the non-empty components. -/
def join_ns (a : String) (b : String) : String :=
  pyJoinDot (([a, b]).filter (fun s => s ≠ ""))

/-- A Python module object as far as `handle_import` inspects it: its
`__file__` attribute (`none` models both a missing attribute and `None`). -/
structure PyMod where
  file : Option String
deriving DecidableEq, Repr

/-- External world state seen by the import machinery: `sys.modules`, plus a
trace of the `importlib.import_module` invocations (candidate name, package)
in order — the observable record of load attempts. -/
structure ImpWorld where
  sysModules : List (String × PyMod)
  trace : List (String × String)
deriving DecidableEq

/-- External environment: `sys.builtin_module_names`, the `importlib`
machinery (which may mutate the world and, through the interception hooks of
`get_custom_loader`, the import manager), and the `os.path` helpers used to
canonicalize the resolved path. -/
structure ImpEnv where
  builtins : List String
  importModule : ImpWorld → ImportManager → String → String →
    ImpWorld × ImportManager × Option PyMod
  relpath : String → Option String → String
  toModName : String → String
  dirOf : String → String

/-- `ImportManager._do_import`: a name already in `sys.modules` only records
an edge and returns the cached module (an `ImportManagerError` from
`create_edge` propagates to the caller's bare `except`, modelled as a failed
attempt with the manager unchanged); otherwise `importlib.import_module`
runs.  `none` models a raised exception. -/
def _do_import (env : ImpEnv) (w : ImpWorld) (im : ImportManager)
    (mod_name : String) (package : String) :
    ImpWorld × ImportManager × Option PyMod :=
  match alistLookup w.sysModules mod_name with
  | some m =>
    match create_edge im mod_name with
    | .error _ => (w, im, none)
    | .ok im2 => (w, im2, some m)
  | none => env.importModule w im mod_name package

/-- The ordered candidate list built by `handle_import`: the combined
relative name with its base package, its parent with the same base, the name
joined under the package namespace, and the parent of the name joined the
same way. -/
def combosOf (mod_name : String) (package : String) (name : String) :
    List (String × String) :=
  let parent := pyJoinDot (pySplitChar '.' mod_name).dropLast
  let parent_name := pyJoinDot (pySplitChar '.' name).dropLast
  [(mod_name, package), (parent, package),
   (join_ns package name, ""), (join_ns package parent_name, "")]

/-- The `for mn, pkg in combos` loop of `handle_import`: try each candidate
in order under a bare `except: continue`, stopping at the first success. -/
def tryCombos (env : ImpEnv) (w : ImpWorld) (im : ImportManager) :
    List (String × String) → ImpWorld × ImportManager × Option PyMod
  | [] => (w, im, none)
  | (mn, pkg) :: rest =>
    match _do_import env w im mn pkg with
    | (w2, im2, some m) => (w2, im2, some m)
    | (w2, im2, none) => tryCombos env w2 im2 rest

/-- `ImportManager.handle_import`.  Builtin roots only record an edge (an
`ImportManagerError` from that `create_edge` propagates).  A bad level is a
caught `ImportError` (silent skip).  Then the four candidates are tried in
order; no module, a module without a usable `__file__`, or a configured
`mod_dir` that is not a substring of the file path all end in a silent skip
with the state of the attempt kept; otherwise the path (normalized for a
package initializer) is converted to a dotted name relative to `mod_dir`. -/
def handle_import (env : ImpEnv) (w : ImpWorld) (im : ImportManager)
    (name : String) (level : Nat) :
    ImpWorld × ImportManager × Except IMErr (Option String) :=
  let root := (pySplitChar '.' name).headD ""
  if root ∈ env.builtins then
    match create_edge im root with
    | .error e => (w, im, .error e)
    | .ok im2 => (w, im2, .ok none)
  else
    match _handle_import_level im name level with
    | .error _ => (w, im, .ok none)
    | .ok (mod_name, package) =>
      match tryCombos env w im (combosOf mod_name package name) with
      | (w2, im2, none) => (w2, im2, .ok none)
      | (w2, im2, some mod) =>
        match mod.file with
        | none => (w2, im2, .ok none)
        | some f =>
          if f = "" then (w2, im2, .ok none)
          else
            match im2.mod_dir with
            | some d =>
              if pyInStr d f then
                let fname := if pyEndsWith f "__init__.py" then env.dirOf f else f
                (w2, im2, .ok (some (env.toModName (env.relpath fname im2.mod_dir))))
              else (w2, im2, .ok none)
            | none =>
              let fname := if pyEndsWith f "__init__.py" then env.dirOf f else f
              (w2, im2, .ok (some (env.toModName (env.relpath fname im2.mod_dir))))

/- ===================== pycg.py (CallGraphGenerator) ===================== -/

/-- Per-definition data copied by `extract_state`: the name-pointee set and
the literal-pointee set. -/
structure DefSnap where
  names : Finset String
  lit : Finset String
deriving DecidableEq

/-- A state snapshot as built by `extract_state`: per-definition pointee
sets, per-scope bound-namespace sets, per-class MRO lists.  The same shape
models the observable data of the external fact stores (definition, scope
and class managers) that `extract_state` copies. -/
structure Snapshot where
  defs : List (String × DefSnap)
  scopes : List (String × Finset String)
  classes : List (String × List String)
deriving DecidableEq

def Snapshot.empty : Snapshot := { defs := [], scopes := [], classes := [] }

/-- Events on the process-wide module-lookup state, in temporal order:
`install_hooks`, a pass invocation (`processor.analyze()`), `remove_hooks`. -/
inductive HookEvent where
  | installEvt
  | passRun (mod : String)
  | removeEvt
deriving DecidableEq, Repr

/-- Process-wide interpreter state mutated by `install_hooks` /
`remove_hooks`: `sys.path_hooks` (entries modelled opaquely) and `sys.path`,
plus the temporal event log.  (`_clear_caches` only empties lookup caches,
which no claim observes, so caches are not carried.) -/
structure SysState where
  pathHooks : List Unit
  path : List String
  events : List HookEvent
deriving DecidableEq

def SysState.init : SysState := { pathHooks := [], path := [], events := [] }

/-- `ImportManager.install_hooks`: save copies of `sys.path_hooks` and
`sys.path` on the manager, insert the interception hook at the front of
`sys.path_hooks`, insert the package directory at the front of `sys.path`.
(The `os.path.abspath` on `mod_dir` is external; the driver always configures
an absolute `mod_dir` before installing.) -/
def install_hooks (im : ImportManager) (s : SysState) : ImportManager × SysState :=
  ({ im with old_path_hooks := some s.pathHooks, old_path := some s.path },
   { s with pathHooks := () :: s.pathHooks,
            path := im.mod_dir.getD "" :: s.path,
            events := s.events ++ [HookEvent.installEvt] })

/-- `ImportManager.remove_hooks`: restore the saved `sys.path_hooks` and
`sys.path` exactly. -/
def remove_hooks (im : ImportManager) (s : SysState) : ImportManager × SysState :=
  (im, { s with pathHooks := im.old_path_hooks.getD [],
                path := im.old_path.getD [],
                events := s.events ++ [HookEvent.removeEvt] })

/-- `ImportManager.set_pkg`. -/
def set_pkg (im : ImportManager) (input_pkg : String) : ImportManager :=
  { im with mod_dir := some input_pkg }

/-- The mutable state owned by `CallGraphGenerator` that the driver claims
observe: the import manager, the process-wide interpreter state, the data of
the external fact stores, and the convergence snapshot `self.state`.  (The
`CallGraph` and key-error accumulators are only ever passed through to the
passes and are not read by the driver itself.) -/
structure DriverState where
  im : ImportManager
  sys : SysState
  facts : Snapshot
  state : Option Snapshot
deriving DecidableEq

/-- `CallGraphGenerator.extract_state`: copy the per-definition pointee sets,
the per-scope bound-namespace sets and the per-class MRO lists out of the
fact stores. -/
def extract_state (g : DriverState) : Snapshot :=
  { defs := g.facts.defs.map (fun kd => (kd.1, { names := kd.2.names, lit := kd.2.lit })),
    scopes := g.facts.scopes.map (fun ks => (ks.1, ks.2)),
    classes := g.facts.classes.map (fun kc => (kc.1, kc.2)) }

/-- `CallGraphGenerator.has_converged`: `False` with no prior snapshot;
otherwise every definition, scope and class entry of the *current* snapshot
must be present in the prior snapshot with equal data. -/
def has_converged (g : DriverState) : Bool :=
  match g.state with
  | none => false
  | some st =>
    let curr := extract_state g
    (curr.defs.all (fun kd =>
      match alistLookup st.defs kd.1 with
      | none => false
      | some d => decide (kd.2.names = d.names) && decide (kd.2.lit = d.lit)))
    && (curr.scopes.all (fun ks =>
      match alistLookup st.scopes ks.1 with
      | none => false
      | some s => decide (ks.2 = s)))
    && (curr.classes.all (fun kc =>
      match alistLookup st.classes kc.1 with
      | none => false
      | some c => decide (kc.2 = c)))

/-- Result of one analysis pass over one entry point: the mutated state and,
on success, `get_modules_analyzed()`; `.error` models a raised exception
(the state at the raise is kept, Python mutation being in place). -/
def PassFn : Type :=
  String → String → Finset String → DriverState → DriverState × Except String (Finset String)

/-- External collaborators of the driver: the `os.path` helpers, the
module-name derivation (`utils.to_mod_name` composed with
`os.path.relpath`), the four pass classes, and the fact-store operations
`complete_definitions` / per-scope `reset_counters`. -/
structure AnalyzeEnv where
  toModNameRel : String → String → String
  abspath : String → String
  dirname : String → String
  preProc : PassFn
  postProc : PassFn
  cgProc : PassFn
  keyProc : PassFn
  completeDefinitions : DriverState → DriverState
  resetCountersExt : DriverState → DriverState

/-- `CallGraphGenerator._get_mod_name`: derive the module name from the path
relative to the package, dropping a trailing `__init__` segment. -/
def _get_mod_name (env : AnalyzeEnv) (entry : String) (pkg : String) : String :=
  let input_mod := env.toModNameRel entry pkg
  if pyEndsWith input_mod "__init__" then
    pyJoinDot (pySplitChar '.' input_mod).dropLast
  else input_mod

/-- The entry-point loop of `CallGraphGenerator.do_pass`, carrying the
stage-wide `modules_analyzed` dedup set.  Entries with no derivable module
name or an already-analyzed module are skipped.  When hooks are requested the
resolver root is configured and interception installed before, and removed
after, each individual pass invocation; the `passRun` event marks the
`processor.analyze()` call.  A raised pass exception propagates immediately —
there is no `finally`, so no removal happens on that path. -/
def do_pass_go (env : AnalyzeEnv) (proc : PassFn) (installH : Bool)
    (package : String) :
    List String → Finset String → DriverState → DriverState × Option String
  | [], _, g => (g, none)
  | entry :: rest, analyzed, g =>
    let input_pkg := package
    let input_mod := _get_mod_name env entry input_pkg
    let input_file := env.abspath entry
    if input_mod = "" then do_pass_go env proc installH package rest analyzed g
    else
      let input_pkg2 := if input_pkg = "" then env.dirname input_file else input_pkg
      if input_mod ∈ analyzed then do_pass_go env proc installH package rest analyzed g
      else
        let g1 :=
          if installH then
            let im1 := set_pkg g.im input_pkg2
            let p := install_hooks im1 g.sys
            { g with im := p.1, sys := p.2 }
          else g
        let g2 := { g1 with sys :=
          { g1.sys with events := g1.sys.events ++ [HookEvent.passRun input_mod] } }
        match proc input_file input_mod analyzed g2 with
        | (g3, .error e) => (g3, some e)
        | (g3, .ok mods) =>
          let analyzed2 := analyzed ∪ mods
          let g4 :=
            if installH then
              let p := remove_hooks g3.im g3.sys
              { g3 with im := p.1, sys := p.2 }
            else g3
          do_pass_go env proc installH package rest analyzed2 g4

/-- `CallGraphGenerator.do_pass`: run the entry-point loop with a fresh dedup
set. -/
def do_pass (env : AnalyzeEnv) (proc : PassFn) (installH : Bool)
    (package : String) (entries : List String) (g : DriverState) :
    DriverState × Option String :=
  do_pass_go env proc installH package entries ∅ g

/-- The guard of the Stage-2 fixed-point loop:
`(max_iter < 0 or iter_cnt < max_iter) and not has_converged()`. -/
def stage2_cond (maxIter : Int) (iterCnt : Nat) (g : DriverState) : Bool :=
  (decide (maxIter < 0) || decide ((iterCnt : Int) < maxIter)) && !(has_converged g)

/-- One Stage-2 iteration body: snapshot the state, reset the per-scope
counters, run the postprocessing pass over all entry points, then force
completion of deferred definitions. -/
def stage2_body (env : AnalyzeEnv) (entries : List String) (package : String)
    (g : DriverState) : DriverState × Option String :=
  let g1 := { g with state := some (extract_state g) }
  let g2 := env.resetCountersExt g1
  match do_pass env env.postProc false package entries g2 with
  | (g3, some e) => (g3, some e)
  | (g3, none) => (env.completeDefinitions g3, none)

/-- The Stage-2 `while` loop.  `fuel` is an upper bound on the number of
iterations examined (needed because a negative `max_iter` makes the source
loop unbounded); within the fuel the loop iterates exactly while the guard
holds.  Returns the state, the final iteration count and a propagated pass
exception, if any. -/
def stage2_loop (env : AnalyzeEnv) (entries : List String) (package : String)
    (maxIter : Int) : Nat → Nat → DriverState → DriverState × Nat × Option String
  | 0, iterCnt, g => (g, iterCnt, none)
  | fuel + 1, iterCnt, g =>
    if stage2_cond maxIter iterCnt g then
      match stage2_body env entries package g with
      | (g3, some e) => (g3, iterCnt, some e)
      | (g4, none) => stage2_loop env entries package maxIter fuel (iterCnt + 1) g4
    else (g, iterCnt, none)

/-- `CallGraphGenerator.analyze`: Stage 1 (preprocessing, hooks installed),
`complete_definitions`, the Stage-2 fixed-point loop, `reset_counters`, then
the Stage-3 terminal pass selected by the operation mode; an unknown mode
raises.  A pass exception propagates at any stage. -/
def analyze (env : AnalyzeEnv) (entries : List String) (package : String)
    (maxIter : Int) (operation : String) (fuel : Nat) (g : DriverState) :
    DriverState × Option String :=
  match do_pass env env.preProc true package entries g with
  | (g1, some e) => (g1, some e)
  | (g1, none) =>
    let g2 := env.completeDefinitions g1
    match stage2_loop env entries package maxIter fuel 0 g2 with
    | (g3, _, some e) => (g3, some e)
    | (g3, _, none) =>
      let g4 := env.resetCountersExt g3
      if operation = "call-graph" then
        do_pass env env.cgProc false package entries g4
      else if operation = "key-error" then
        do_pass env env.keyProc false package entries g4
      else (g4, some ("Invalid operation: " ++ operation))

/-- Follows the spec's words (refinement target for C2): with
`max_iterations = 0` the run performs zero Stage-2 iterations and proceeds
directly from the state accumulated in Stage 1 to the Stage-3 terminal
pass. -/
def analyzeZeroIterSpec (env : AnalyzeEnv) (entries : List String)
    (package : String) (operation : String) (g : DriverState) :
    DriverState × Option String :=
  match do_pass env env.preProc true package entries g with
  | (g1, some e) => (g1, some e)
  | (g1, none) =>
    let g4 := env.resetCountersExt (env.completeDefinitions g1)
    if operation = "call-graph" then
      do_pass env env.cgProc false package entries g4
    else if operation = "key-error" then
      do_pass env env.keyProc false package entries g4
    else (g4, some ("Invalid operation: " ++ operation))

/-- Exactly-one-pass-per-bracket discipline: the event log is a sequence of
`install, passRun, remove` triples — interception installed immediately
before and removed immediately after each individual pass invocation. -/
def pairedPerEntry : List HookEvent → Bool
  | [] => true
  | HookEvent.installEvt :: HookEvent.passRun _ :: HookEvent.removeEvt :: rest =>
    pairedPerEntry rest
  | _ => false

/- ===================== auxiliary observables ===================== -/

/-- Length of the provenance log `cg_extended[s]['dsts']` (0 when absent). -/
def dstsLen (g : CallGraph) (s : String) : Nat :=
  ((alistLookup g.cg_extended s).map (fun e => e.dsts.length)).getD 0

/-- The three CallGraph dicts agree on whether `k` is present — the invariant
every state reachable through `add_node` / `add_edge` satisfies. -/
def keyConsistent (g : CallGraph) (k : String) : Prop :=
  (alistLookup g.cg k).isSome = (alistLookup g.cg_extended k).isSome
  ∧ (alistLookup g.cg k).isSome = (alistLookup g.modnames k).isSome

instance (g : CallGraph) (k : String) : Decidable (keyConsistent g k) :=
  inferInstanceAs (Decidable (_ ∧ _))

/-- Follows the spec's words: a filesystem path lies inside a root directory
when the root (as a directory prefix) leads to it. -/
def pathUnder (root : String) (p : String) : Bool :=
  List.isPrefixOf (root ++ "/").data p.data || p == root

/- ===================== concrete scenarios ===================== -/

/-- State after `add_node("n", "")` on a fresh CallGraph. -/
def c6g1 : CallGraph :=
  { cg := [("n", ∅)], cg_extended := [("n", ⟨[], ""⟩)], modnames := [("n", "")] }

/-- State after a further `add_node("n", "m1")`. -/
def c6g2 : CallGraph :=
  { cg := [("n", ∅)], cg_extended := [("n", ⟨[], ""⟩)], modnames := [("n", "m1")] }

/-- State after a further `add_node("n", "m2")`: the registry still holds
`"m1"` but the extended metadata was backfilled to `"m2"`. -/
def c6g3 : CallGraph :=
  { cg := [("n", ∅)], cg_extended := [("n", ⟨[], "m2"⟩)], modnames := [("n", "m1")] }

/-- State after `add_node("n", "m1")` applied twice from `c6g1`: the second
identical call backfills the extended metadata to `"m1"`. -/
def c8g3 : CallGraph :=
  { cg := [("n", ∅)], cg_extended := [("n", ⟨[], "m1"⟩)], modnames := [("n", "m1")] }

/-- An ImportManager whose current module is the non-initializer module
`pkg.sub.mod`. -/
def im3 : ImportManager :=
  { import_graph := [("pkg.sub.mod", ⟨"/r/pkg/sub/mod.py", ∅⟩)],
    current_module := "pkg.sub.mod", input_file := "/r/pkg/sub/mod.py",
    mod_dir := some "/r", old_path_hooks := none, old_path := none }

/-- Environment whose `importlib.import_module` records every invocation in
the trace and always fails (raises); path helpers are the identity. -/
def logEnv : ImpEnv :=
  { builtins := [],
    importModule := fun w im mn pkg => ({ w with trace := w.trace ++ [(mn, pkg)] }, im, none),
    relpath := fun p _ => p, toModName := fun s => s, dirOf := fun s => s }

/-- Environment whose `importlib.import_module` records the invocation and
immediately succeeds with module `pm`. -/
def succEnv (pm : PyMod) : ImpEnv :=
  { builtins := [],
    importModule := fun w im mn pkg =>
      ({ w with trace := w.trace ++ [(mn, pkg)] }, im, some pm),
    relpath := fun p _ => p, toModName := fun s => s, dirOf := fun s => s }

/-- Environment whose `importlib.import_module` succeeds with `pm` exactly on
the `k`-th invocation (counted via the trace) and fails otherwise. -/
def succAtEnv (k : Nat) (pm : PyMod) : ImpEnv :=
  { builtins := [],
    importModule := fun w im mn pkg =>
      let w2 := { w with trace := w.trace ++ [(mn, pkg)] }
      if w2.trace.length = k then (w2, im, some pm) else (w2, im, none),
    relpath := fun p _ => p, toModName := fun s => s, dirOf := fun s => s }

/-- Import manager for the external-boundary scenarios: analyzing module
`cur` with package root `/pkg`. -/
def im4 : ImportManager :=
  { import_graph := [("cur", ⟨"/x/cur.py", ∅⟩)],
    current_module := "cur", input_file := "/x/cur.py",
    mod_dir := some "/pkg", old_path_hooks := none, old_path := none }

/-- `im4` after the load attempt recorded the edge `cur → m`. -/
def im4edge : ImportManager :=
  { import_graph := [("cur", ⟨"/x/cur.py", insert "m" (∅ : Finset String)⟩)],
    current_module := "cur", input_file := "/x/cur.py",
    mod_dir := some "/pkg", old_path_hooks := none, old_path := none }

/-- World where `sys.modules` caches module `m` at a path that is outside
the root `/pkg` but contains `/pkg` as a substring. -/
def w4 : ImpWorld :=
  { sysModules := [("m", ⟨some "/evil/pkg/m.py"⟩)], trace := [] }

/-- World where `sys.modules` caches module `m` at a path that does not
contain the root `/pkg` at all. -/
def w4b : ImpWorld :=
  { sysModules := [("m", ⟨some "/evil/other/m.py"⟩)], trace := [] }

/-- Driver state whose prior snapshot holds a definition key `a` that the
current fact stores no longer have. -/
def gC1 : DriverState :=
  { im := ImportManager.init, sys := SysState.init, facts := Snapshot.empty,
    state := some { defs := [("a", ⟨∅, ∅⟩)], scopes := [], classes := [] } }

/-- A pass that succeeds without mutating anything and reports no analyzed
modules. -/
def passOk : PassFn := fun _ _ _ g => (g, .ok ∅)

/-- A pass that raises. -/
def passRaise : PassFn := fun _ _ _ g => (g, .error "pass raised")

/-- Concrete driver environment: the module name of an entry is the entry
itself, path helpers are the identity, all passes are inert. -/
def envD : AnalyzeEnv :=
  { toModNameRel := fun e _ => e, abspath := fun s => s, dirname := fun s => s,
    preProc := passOk, postProc := passOk, cgProc := passOk, keyProc := passOk,
    completeDefinitions := fun g => g, resetCountersExt := fun g => g }

/-- Fresh driver state. -/
def gD0 : DriverState :=
  { im := ImportManager.init, sys := SysState.init, facts := Snapshot.empty,
    state := none }

/-- Driver state left behind when the pass of entry `e` raises under
installed hooks: interception is still active. -/
def gD1 : DriverState :=
  { im := { import_graph := [], current_module := "", input_file := "",
            mod_dir := some "p", old_path_hooks := some [], old_path := some [] },
    sys := { pathHooks := [()], path := ["p"],
             events := [HookEvent.installEvt, HookEvent.passRun "e"] },
    facts := Snapshot.empty, state := none }

/-- Driver state with one definition, one scope and one class in the fact
stores and no prior snapshot. -/
def gW : DriverState :=
  { im := ImportManager.init, sys := SysState.init,
    facts := { defs := [("a", ⟨∅, ∅⟩)], scopes := [("s", ∅)],
               classes := [("c", ["o"])] },
    state := none }

/- ===================== helper lemmas: add_node branches ===================== -/

theorem add_node_fresh {g : CallGraph} {n m : String} (hn : n ≠ "")
    (h : alistLookup g.cg n = none) :
    add_node g n m = .ok { cg := alistSet g.cg n ∅,
                           cg_extended := alistSet g.cg_extended n ⟨[], m⟩,
                           modnames := alistSet g.modnames n m } := by
  unfold add_node
  rw [if_neg hn]
  simp only [h, Option.isNone_none, if_pos, alistLookup_set_self]
  by_cases hm : m = ""
  · subst hm
    have hself : alistLookup (alistSet g.modnames n "") n = some "" :=
      alistLookup_set_self g.modnames n ""
    simp [alistSet_self hself]
  · simp [hm]

theorem add_node_present_reg_empty {g : CallGraph} {n m : String} (hn : n ≠ "")
    (hcg : (alistLookup g.cg n).isSome = true)
    (hm : alistLookup g.modnames n = some "") :
    add_node g n m = .ok { g with modnames := alistSet g.modnames n m } := by
  unfold add_node
  rw [if_neg hn]
  obtain ⟨s, hs⟩ := Option.isSome_iff_exists.mp hcg
  simp only [hs, Option.isNone_some, Bool.false_eq_true, if_false, hm, if_pos]

theorem add_node_present_ext_fill {g : CallGraph} {n m m0 : String} {e : ExtEntry}
    (hn : n ≠ "") (hcg : (alistLookup g.cg n).isSome = true)
    (hm : alistLookup g.modnames n = some m0) (hm0 : m0 ≠ "")
    (he : alistLookup g.cg_extended n = some e) (hemod : e.modname = "") :
    add_node g n m = .ok ⟨g.cg, alistSet g.cg_extended n ⟨e.dsts, m⟩, g.modnames⟩ := by
  unfold add_node
  rw [if_neg hn]
  obtain ⟨s, hs⟩ := Option.isSome_iff_exists.mp hcg
  simp only [hs, Option.isNone_some, Bool.false_eq_true, if_false, hm, if_neg hm0, he,
    if_pos hemod]

theorem add_node_present_noop {g : CallGraph} {n m m0 : String} {e : ExtEntry}
    (hn : n ≠ "") (hcg : (alistLookup g.cg n).isSome = true)
    (hm : alistLookup g.modnames n = some m0) (hm0 : m0 ≠ "")
    (he : alistLookup g.cg_extended n = some e) (hemod : e.modname ≠ "") :
    add_node g n m = .ok g := by
  unfold add_node
  rw [if_neg hn]
  obtain ⟨s, hs⟩ := Option.isSome_iff_exists.mp hcg
  simp only [hs, Option.isNone_some, Bool.false_eq_true, if_false, hm, if_neg hm0, he,
    if_neg hemod]

theorem add_node_empty_name {g : CallGraph} {m : String} :
    add_node g "" m = .error (.callGraphError "Empty node name") := rfl

theorem add_node_keyErr_mod {g : CallGraph} {n m : String} (hn : n ≠ "")
    (hcg : (alistLookup g.cg n).isSome = true)
    (hm : alistLookup g.modnames n = none) :
    add_node g n m = .error .keyError := by
  unfold add_node
  rw [if_neg hn]
  obtain ⟨s, hs⟩ := Option.isSome_iff_exists.mp hcg
  simp only [hs, Option.isNone_some, Bool.false_eq_true, if_false, hm]

theorem add_node_keyErr_ext {g : CallGraph} {n m m0 : String} (hn : n ≠ "")
    (hcg : (alistLookup g.cg n).isSome = true)
    (hm : alistLookup g.modnames n = some m0) (hm0 : m0 ≠ "")
    (he : alistLookup g.cg_extended n = none) :
    add_node g n m = .error .keyError := by
  unfold add_node
  rw [if_neg hn]
  obtain ⟨s, hs⟩ := Option.isSome_iff_exists.mp hcg
  simp only [hs, Option.isNone_some, Bool.false_eq_true, if_false, hm, if_neg hm0, he]

/-- Complete case analysis of a successful `add_node`. -/
theorem add_node_ok_cases {g g2 : CallGraph} {n m : String}
    (h : add_node g n m = .ok g2) :
    n ≠ "" ∧
    ((alistLookup g.cg n = none ∧
        g2 = ⟨alistSet g.cg n ∅, alistSet g.cg_extended n ⟨[], m⟩,
              alistSet g.modnames n m⟩)
     ∨ (∃ s, alistLookup g.cg n = some s ∧ alistLookup g.modnames n = some "" ∧
        g2 = { g with modnames := alistSet g.modnames n m })
     ∨ (∃ s m0 e, alistLookup g.cg n = some s ∧ alistLookup g.modnames n = some m0 ∧
        m0 ≠ "" ∧ alistLookup g.cg_extended n = some e ∧ e.modname = "" ∧
        g2 = ⟨g.cg, alistSet g.cg_extended n ⟨e.dsts, m⟩, g.modnames⟩)
     ∨ (∃ s m0 e, alistLookup g.cg n = some s ∧ alistLookup g.modnames n = some m0 ∧
        m0 ≠ "" ∧ alistLookup g.cg_extended n = some e ∧ e.modname ≠ "" ∧ g2 = g)) := by
  by_cases hn : n = ""
  · subst hn
    rw [add_node_empty_name] at h
    cases h
  · refine ⟨hn, ?_⟩
    cases hcg : alistLookup g.cg n with
    | none =>
      rw [add_node_fresh hn hcg] at h
      injection h with h
      exact Or.inl ⟨rfl, h.symm⟩
    | some s =>
      have hcgS : (alistLookup g.cg n).isSome = true := by rw [hcg]; rfl
      cases hmn : alistLookup g.modnames n with
      | none =>
        rw [add_node_keyErr_mod hn hcgS hmn] at h
        cases h
      | some m0 =>
        by_cases hm0 : m0 = ""
        · subst hm0
          rw [add_node_present_reg_empty hn hcgS hmn] at h
          injection h with h
          exact Or.inr (Or.inl ⟨s, rfl, rfl, h.symm⟩)
        · cases hext : alistLookup g.cg_extended n with
          | none =>
            rw [add_node_keyErr_ext hn hcgS hmn hm0 hext] at h
            cases h
          | some e =>
            by_cases hem : e.modname = ""
            · rw [add_node_present_ext_fill hn hcgS hmn hm0 hext hem] at h
              injection h with h
              exact Or.inr (Or.inr (Or.inl ⟨s, m0, e, rfl, rfl, hm0, rfl, hem, h.symm⟩))
            · rw [add_node_present_noop hn hcgS hmn hm0 hext hem] at h
              injection h with h
              exact Or.inr (Or.inr (Or.inr ⟨s, m0, e, rfl, rfl, hm0, rfl, hem, h.symm⟩))

/-- A consistent state never makes `add_node` fail (for non-empty names). -/
theorem add_node_ok_of_consistent {g : CallGraph} {n : String} (m : String)
    (hn : n ≠ "") (hc : keyConsistent g n) :
    ∃ g2, add_node g n m = .ok g2 := by
  cases hcg : alistLookup g.cg n with
  | none => exact ⟨_, add_node_fresh hn hcg⟩
  | some s =>
    have hcgS : (alistLookup g.cg n).isSome = true := by rw [hcg]; rfl
    obtain ⟨m0, hmn⟩ := Option.isSome_iff_exists.mp (hc.2 ▸ hcgS)
    by_cases hm0 : m0 = ""
    · subst hm0
      exact ⟨_, add_node_present_reg_empty hn hcgS hmn⟩
    · obtain ⟨e, hext⟩ := Option.isSome_iff_exists.mp (hc.1 ▸ hcgS)
      by_cases hem : e.modname = ""
      · exact ⟨_, add_node_present_ext_fill hn hcgS hmn hm0 hext hem⟩
      · exact ⟨_, add_node_present_noop hn hcgS hmn hm0 hext hem⟩

theorem add_node_cg_of_ok {g g2 : CallGraph} {n m : String}
    (h : add_node g n m = .ok g2) :
    g2.cg = if (alistLookup g.cg n).isNone then alistSet g.cg n ∅ else g.cg := by
  rcases (add_node_ok_cases h).2 with ⟨hcg, rfl⟩ | ⟨s, hcg, hmn, rfl⟩ |
    ⟨s, m0, e, hcg, hmn, hm0, hext, hem, rfl⟩ | ⟨s, m0, e, hcg, hmn, hm0, hext, hem, rfl⟩
  · simp [hcg]
  · simp [hcg]
  · simp [hcg]
  · simp [hcg]

theorem add_node_dstsLen {g g2 : CallGraph} {n m : String}
    (h : add_node g n m = .ok g2)
    (hcons : alistLookup g.cg n = none → alistLookup g.cg_extended n = none)
    (k : String) : dstsLen g2 k = dstsLen g k := by
  rcases (add_node_ok_cases h).2 with ⟨hcg, rfl⟩ | ⟨s, hcg, hmn, rfl⟩ |
    ⟨s, m0, e, hcg, hmn, hm0, hext, hem, rfl⟩ | ⟨s, m0, e, hcg, hmn, hm0, hext, hem, rfl⟩
  · by_cases hk : n = k
    · subst hk
      simp [dstsLen, alistLookup_set_self, hcons hcg]
    · simp [dstsLen, alistLookup_set_ne _ _ hk]
  · rfl
  · by_cases hk : n = k
    · subst hk
      simp [dstsLen, alistLookup_set_self, hext]
    · simp [dstsLen, alistLookup_set_ne _ _ hk]
  · rfl

theorem add_node_keyCons {g g2 : CallGraph} {n m : String}
    (h : add_node g n m = .ok g2) (k : String) (hk : keyConsistent g k) :
    keyConsistent g2 k := by
  rcases (add_node_ok_cases h).2 with ⟨hcg, rfl⟩ | ⟨s, hcg, hmn, rfl⟩ |
    ⟨s, m0, e, hcg, hmn, hm0, hext, hem, rfl⟩ | ⟨s, m0, e, hcg, hmn, hm0, hext, hem, rfl⟩
  · by_cases hkn : n = k
    · subst hkn
      constructor <;> simp [alistLookup_set_self]
    · constructor <;>
        simp only [alistLookup_set_ne _ _ hkn] <;> [exact hk.1; exact hk.2]
  · by_cases hkn : n = k
    · subst hkn
      refine ⟨hk.1, ?_⟩
      simp only [alistLookup_set_self, Option.isSome_some]
      rw [hcg]
      rfl
    · refine ⟨hk.1, ?_⟩
      simp only [alistLookup_set_ne _ _ hkn]
      exact hk.2
  · by_cases hkn : n = k
    · subst hkn
      refine ⟨?_, hk.2⟩
      simp only [alistLookup_set_self, Option.isSome_some]
      rw [hcg]
      rfl
    · refine ⟨?_, hk.2⟩
      simp only [alistLookup_set_ne _ _ hkn]
      exact hk.1
  · exact hk

theorem add_node_cg_lookup {g g2 : CallGraph} {n m : String}
    (h : add_node g n m = .ok g2) (k : String) :
    alistLookup g2.cg k = alistLookup g.cg k
    ∨ (k = n ∧ alistLookup g.cg k = none ∧ alistLookup g2.cg k = some ∅) := by
  rw [add_node_cg_of_ok h]
  cases hg : alistLookup g.cg n with
  | some s => simp
  | none =>
    simp only [Option.isNone_none, if_pos]
    by_cases hk : n = k
    · subst hk
      exact Or.inr ⟨rfl, hg, alistLookup_set_self _ _ _⟩
    · exact Or.inl (alistLookup_set_ne _ _ hk)

theorem add_node_makes_present {g g2 : CallGraph} {n m : String}
    (h : add_node g n m = .ok g2) : (alistLookup g2.cg n).isSome = true := by
  rcases (add_node_ok_cases h).2 with ⟨hcg, rfl⟩ | ⟨s, hcg, hmn, rfl⟩ |
    ⟨s, m0, e, hcg, hmn, hm0, hext, hem, rfl⟩ | ⟨s, m0, e, hcg, hmn, hm0, hext, hem, rfl⟩
  · simp [alistLookup_set_self]
  · simp [hcg]
  · simp [hcg]
  · simp [hcg]

theorem keyCons_ext_none {g : CallGraph} {k : String} (hc : keyConsistent g k)
    (h : alistLookup g.cg k = none) : alistLookup g.cg_extended k = none := by
  have := hc.1
  rw [h] at this
  simpa [Option.isNone_iff_eq_none] using this.symm

/-- Characterization of one successful `add_edge` from a consistent state. -/
theorem add_edge_ok_char {g : CallGraph} {src dst : String} (ln : Int)
    (mod ext : String) (hsrc : src ≠ "") (hdst : dst ≠ "")
    (hc1 : keyConsistent g src) (hc2 : keyConsistent g dst) :
    ∃ g1 s1,
      add_edge g src dst ln mod ext = (g1, none)
      ∧ dstsLen g1 src = dstsLen g src + 1
      ∧ keyConsistent g1 src ∧ keyConsistent g1 dst
      ∧ alistLookup g1.cg src = some s1 ∧ dst ∈ s1
      ∧ (alistLookup g1.cg dst).isSome = true
      ∧ (∀ s0, alistLookup g.cg src = some s0 → s1 = insert dst s0)
      ∧ ((alistLookup g.cg dst).isSome = true →
          ∀ s0, alistLookup g.cg src = some s0 → dst ∈ s0 → g1.cg = g.cg) := by
  obtain ⟨gA, hA⟩ := add_node_ok_of_consistent mod hsrc hc1
  have hcA1 : keyConsistent gA src := add_node_keyCons hA src hc1
  have hcA2 : keyConsistent gA dst := add_node_keyCons hA dst hc2
  obtain ⟨gB, hB⟩ := add_node_ok_of_consistent "" hdst hcA2
  have hcB1 : keyConsistent gB src := add_node_keyCons hB src hcA1
  have hcB2 : keyConsistent gB dst := add_node_keyCons hB dst hcA2
  have hsrcA : (alistLookup gA.cg src).isSome = true := add_node_makes_present hA
  have hsrcB : (alistLookup gB.cg src).isSome = true := by
    rcases add_node_cg_lookup hB src with heq | ⟨_, _, hsome⟩
    · rw [heq]; exact hsrcA
    · rw [hsome]; rfl
  have hdstB : (alistLookup gB.cg dst).isSome = true := add_node_makes_present hB
  obtain ⟨sB, hsB⟩ := Option.isSome_iff_exists.mp hsrcB
  obtain ⟨eB, heB⟩ := Option.isSome_iff_exists.mp (hcB1.1 ▸ hsrcB)
  refine ⟨⟨alistSet gB.cg src (insert dst sB),
          alistSet gB.cg_extended src ⟨eB.dsts ++ [⟨dst, ln, mod, ext⟩], eB.modname⟩,
          gB.modnames⟩, insert dst sB, ?_, ?_, ?_, ?_, ?_, ?_, ?_, ?_, ?_⟩
  · unfold add_edge
    simp only [hA, hB, hsB, heB]
  · have h1 : dstsLen g src = dstsLen gA src := by
      refine (add_node_dstsLen hA ?_ src).symm
      exact keyCons_ext_none hc1
    have h2 : dstsLen gA src = dstsLen gB src := by
      refine (add_node_dstsLen hB ?_ src).symm
      exact keyCons_ext_none hcA2
    rw [h1, h2]
    simp [dstsLen, alistLookup_set_self, heB]
  · refine ⟨?_, ?_⟩ <;>
      simp only [alistLookup_set_self, Option.isSome_some] <;>
      rw [← hcB1.2, hsB] <;> rfl
  · by_cases hds : src = dst
    · subst hds
      refine ⟨?_, ?_⟩ <;>
        simp only [alistLookup_set_self, Option.isSome_some] <;>
        rw [← hcB1.2, hsB] <;> rfl
    · refine ⟨?_, ?_⟩ <;> simp only [alistLookup_set_ne _ _ hds]
      · rw [← hcB2.1]
      · rw [← hcB2.2]
  · exact alistLookup_set_self _ _ _
  · exact Finset.mem_insert_self dst sB
  · by_cases hds : src = dst
    · subst hds
      simp [alistLookup_set_self]
    · simp only [alistLookup_set_ne _ _ hds]
      exact hdstB
  · intro s0 hs0
    have hgA : alistLookup gA.cg src = some s0 := by
      rcases add_node_cg_lookup hA src with heq | ⟨_, hnone, _⟩
      · rw [heq, hs0]
      · rw [hs0] at hnone; cases hnone
    have hgB : alistLookup gB.cg src = some s0 := by
      rcases add_node_cg_lookup hB src with heq | ⟨_, hnone, _⟩
      · rw [heq, hgA]
      · rw [hgA] at hnone; cases hnone
    rw [hsB] at hgB
    injection hgB with hgB
    rw [hgB]
  · intro hdstg s0 hs0 hmem
    have hAcg : gA.cg = g.cg := by
      rw [add_node_cg_of_ok hA, hs0]
      rfl
    have hBcg : gB.cg = g.cg := by
      rw [add_node_cg_of_ok hB, hAcg]
      obtain ⟨t0, ht0⟩ := Option.isSome_iff_exists.mp hdstg
      rw [ht0]
      rfl
    have hsB' : alistLookup g.cg src = some sB := by rw [← hBcg, hsB]
    have hsBs0 : sB = s0 := by
      rw [hs0] at hsB'
      injection hsB' with h2
      exact h2.symm
    show alistSet gB.cg src (insert dst sB) = g.cg
    rw [hBcg, hsBs0, Finset.insert_eq_self.mpr hmem]
    exact alistSet_self hs0

/- ===================== C6 ===================== -/

/-- C6 counterexample: after `add_node("n","")`, `add_node("n","m1")`,
`add_node("n","m2")` the module registry returned by `get_modules` holds
`"m1"` but the extended-graph metadata returned by `get_extended` holds
`"m2"` — so the declaring module is not `"m1"` in both places, refuting the
claim at this input. -/
theorem add_node_extended_meta_counter :
    add_node CallGraph.empty "n" "" = .ok c6g1
    ∧ add_node c6g1 "n" "m1" = .ok c6g2
    ∧ add_node c6g2 "n" "m2" = .ok c6g3
    ∧ alistLookup (get_modules c6g3) "n" = some "m1"
    ∧ (alistLookup (get_extended c6g3) "n").map ExtEntry.modname = some "m2"
    ∧ "m2" ≠ "m1" :=
  ⟨rfl, rfl, rfl, rfl, rfl, by decide⟩

/-- C6 (amended): the module registry returned by `get_modules` records the
first non-empty modname and, once non-empty, is never overwritten by a later
blank or differing value; the extended-graph metadata returned by
`get_extended` does not share this property — in the sequence
`add_node(n,"")`, `add_node(n,"m1")`, `add_node(n,"m2")` the registry stores
`"m1"` while the extended metadata stores `"m2"`. -/
theorem add_node_module_registry_first_wins :
    (∀ (g g2 : CallGraph) (n m m0 : String),
        (alistLookup g.cg n).isSome = true →
        alistLookup g.modnames n = some m0 → m0 ≠ "" →
        add_node g n m = .ok g2 →
        alistLookup (get_modules g2) n = some m0)
    ∧ (∀ (g g2 : CallGraph) (n m : String),
        alistLookup g.modnames n = some "" →
        add_node g n m = .ok g2 →
        alistLookup (get_modules g2) n = some m)
    ∧ alistLookup (get_modules c6g3) "n" = some "m1"
    ∧ (alistLookup (get_extended c6g3) "n").map ExtEntry.modname = some "m2" := by
  refine ⟨?_, ?_, rfl, rfl⟩
  · intro g g2 n m m0 hcg hmn hm0 h
    rcases (add_node_ok_cases h).2 with ⟨hno, rfl⟩ | ⟨s, hs, hmn2, rfl⟩ |
      ⟨s, m1, e, hs, hmn2, hm1, hext, hem, rfl⟩ | ⟨s, m1, e, hs, hmn2, hm1, hext, hem, rfl⟩
    · rw [hno] at hcg
      cases hcg
    · rw [hmn] at hmn2
      injection hmn2 with hmn2
      exact absurd hmn2 hm0
    · exact hmn
    · exact hmn
  · intro g g2 n m hmn h
    rcases (add_node_ok_cases h).2 with ⟨hno, rfl⟩ | ⟨s, hs, hmn2, rfl⟩ |
      ⟨s, m1, e, hs, hmn2, hm1, hext, hem, rfl⟩ | ⟨s, m1, e, hs, hmn2, hm1, hext, hem, rfl⟩
    · exact alistLookup_set_self g.modnames n m
    · exact alistLookup_set_self g.modnames n m
    · rw [hmn] at hmn2
      injection hmn2 with hmn2
      exact absurd hmn2.symm hm1
    · rw [hmn] at hmn2
      injection hmn2 with hmn2
      exact absurd hmn2.symm hm1

/-- Witness for C6: the general conjuncts applied to the concrete three-call
sequence. -/
theorem add_node_module_registry_first_wins_witness :
    alistLookup (get_modules c6g3) "n" = some "m1"
    ∧ alistLookup (get_modules c6g2) "n" = some "m1" :=
  ⟨add_node_module_registry_first_wins.1 c6g2 c6g3 "n" "m2" "m1" rfl rfl (by decide) rfl,
   add_node_module_registry_first_wins.2.1 c6g1 c6g2 "n" "m1" rfl rfl⟩

/- ===================== C8 ===================== -/

/-- C8 counterexample: two `add_node` calls with identical arguments
`("n","m1")` from the state reached by `add_node("n","")` do not leave the
state unchanged after the first call — the second call backfills the
extended metadata from `""` to `"m1"`. -/
theorem add_node_repeat_changes_state :
    add_node c6g1 "n" "m1" = .ok c6g2
    ∧ add_node c6g2 "n" "m1" = .ok c8g3
    ∧ c8g3 ≠ c6g2 :=
  ⟨rfl, rfl, by decide⟩

/-- C8 (amended): a second `add_node` with identical arguments is a no-op
unless the node pre-existed with a non-empty registry module and empty
extended metadata while `m` is non-empty (then the second call backfills the
extended metadata, as in the counterexample); and for two `add_edge` calls
with identical `(src, dst, lineno)` each call appends exactly one record to
the provenance log while the deduplicated adjacency is unchanged by the
second call. -/
theorem add_node_add_edge_repeat_behavior :
    (∀ (g g1 : CallGraph) (n m : String),
        add_node g n m = .ok g1 →
        (m = "" ∨ ∃ e, alistLookup g1.cg_extended n = some e ∧ e.modname ≠ "") →
        add_node g1 n m = .ok g1)
    ∧ (∀ (g : CallGraph) (src dst : String) (ln : Int) (mod ext : String),
        src ≠ "" → dst ≠ "" → keyConsistent g src → keyConsistent g dst →
        ∃ g1 g2, add_edge g src dst ln mod ext = (g1, none)
          ∧ add_edge g1 src dst ln mod ext = (g2, none)
          ∧ dstsLen g1 src = dstsLen g src + 1
          ∧ dstsLen g2 src = dstsLen g1 src + 1
          ∧ g2.cg = g1.cg) := by
  constructor
  · intro g g1 n m h hyp
    have hn := (add_node_ok_cases h).1
    rcases (add_node_ok_cases h).2 with ⟨hcg, rfl⟩ | ⟨s, hcg, hmn, rfl⟩ |
      ⟨s, m0, e, hcg, hmn, hm0, hext, hem, rfl⟩ | ⟨s, m0, e, hcg, hmn, hm0, hext, hem, hg1⟩
    · have hcg1 : (alistLookup (CallGraph.mk (alistSet g.cg n ∅)
          (alistSet g.cg_extended n ⟨[], m⟩) (alistSet g.modnames n m)).cg n).isSome = true := by
        simp [alistLookup_set_self]
      have hmn1 : alistLookup (CallGraph.mk (alistSet g.cg n ∅)
          (alistSet g.cg_extended n ⟨[], m⟩) (alistSet g.modnames n m)).modnames n = some m :=
        alistLookup_set_self _ _ _
      by_cases hm : m = ""
      · subst hm
        rw [add_node_present_reg_empty hn hcg1 hmn1]
        have hself : alistSet (alistSet g.modnames n "") n "" = alistSet g.modnames n "" :=
          alistSet_self (alistLookup_set_self _ _ _)
        simp [hself]
      · exact add_node_present_noop (e := ⟨[], m⟩) hn hcg1 hmn1 hm
          (alistLookup_set_self _ _ _) hm
    · have hcg1 : (alistLookup { g with modnames := alistSet g.modnames n m }.cg n).isSome
          = true := by simp [hcg]
      have hmn1 : alistLookup { g with modnames := alistSet g.modnames n m }.modnames n
          = some m := alistLookup_set_self _ _ _
      by_cases hm : m = ""
      · subst hm
        rw [add_node_present_reg_empty hn hcg1 hmn1]
        have hself : alistSet (alistSet g.modnames n "") n "" = alistSet g.modnames n "" :=
          alistSet_self (alistLookup_set_self _ _ _)
        simp [hself]
      · rcases hyp with hm2 | ⟨e, he, hemod⟩
        · exact absurd hm2 hm
        · exact add_node_present_noop hn hcg1 hmn1 hm he hemod
    · have hcg1 : (alistLookup (CallGraph.mk g.cg
          (alistSet g.cg_extended n ⟨e.dsts, m⟩) g.modnames).cg n).isSome = true := by
        simp [hcg]
      have hmn1 : alistLookup (CallGraph.mk g.cg
          (alistSet g.cg_extended n ⟨e.dsts, m⟩) g.modnames).modnames n = some m0 := hmn
      have hext1 : alistLookup (CallGraph.mk g.cg
          (alistSet g.cg_extended n ⟨e.dsts, m⟩) g.modnames).cg_extended n
          = some ⟨e.dsts, m⟩ := alistLookup_set_self _ _ _
      by_cases hm : m = ""
      · subst hm
        rw [add_node_present_ext_fill hn hcg1 hmn1 hm0 hext1 rfl]
        have hself : alistSet (alistSet g.cg_extended n ⟨e.dsts, ""⟩) n ⟨e.dsts, ""⟩
            = alistSet g.cg_extended n ⟨e.dsts, ""⟩ :=
          alistSet_self (alistLookup_set_self _ _ _)
        simp [hself]
      · exact add_node_present_noop hn hcg1 hmn1 hm0 hext1 hm
    · subst hg1
      exact h
  · intro g src dst ln mod ext hsrc hdst hc1 hc2
    obtain ⟨g1, s1, hE1, hL1, hk1s, hk1d, hs1, hdmem, hdsome, _, _⟩ :=
      add_edge_ok_char ln mod ext hsrc hdst hc1 hc2
    obtain ⟨g2, s2, hE2, hL2, _, _, _, _, _, _, hstable2⟩ :=
      add_edge_ok_char (g := g1) ln mod ext hsrc hdst hk1s hk1d
    exact ⟨g1, g2, hE1, hE2, hL1, hL2, hstable2 hdsome s1 hs1 hdmem⟩

/-- Witness for C8: the amended theorem applied at the concrete states of the
counterexample sequence and at a concrete double `add_edge`. -/
theorem add_node_add_edge_repeat_behavior_witness :
    add_node c8g3 "n" "m1" = .ok c8g3
    ∧ ∃ g1 g2, add_edge CallGraph.empty "f" "g" 3 "mf" "" = (g1, none)
        ∧ add_edge g1 "f" "g" 3 "mf" "" = (g2, none)
        ∧ dstsLen g1 "f" = dstsLen CallGraph.empty "f" + 1
        ∧ dstsLen g2 "f" = dstsLen g1 "f" + 1
        ∧ g2.cg = g1.cg :=
  ⟨add_node_add_edge_repeat_behavior.1 c6g2 c8g3 "n" "m1" rfl
      (Or.inr ⟨⟨[], "m1"⟩, rfl, by decide⟩),
   add_node_add_edge_repeat_behavior.2 CallGraph.empty "f" "g" 3 "mf" ""
      (by decide) (by decide) (by decide) (by decide)⟩

/- ===================== C10 ===================== -/

/-- C10: calling `add_edge` with an empty destination raises
`CallGraphError`, but only after `add_node(src, mod)` has already run — the
source node exists in the result, and if it was absent before the call the
graph has been mutated even though the operation failed. -/
theorem add_edge_error_after_mutation :
    ∀ (g : CallGraph) (src : String) (ln : Int) (mod ext : String),
      src ≠ "" → keyConsistent g src →
      (add_edge g src "" ln mod ext).2 = some (CGErr.callGraphError "Empty node name")
      ∧ (alistLookup (add_edge g src "" ln mod ext).1.cg src).isSome = true
      ∧ (alistLookup g.cg src = none → (add_edge g src "" ln mod ext).1 ≠ g) := by
  intro g src ln mod ext hsrc hc
  obtain ⟨gA, hA⟩ := add_node_ok_of_consistent mod hsrc hc
  have hres : add_edge g src "" ln mod ext
      = (gA, some (.callGraphError "Empty node name")) := by
    unfold add_edge
    simp only [hA, add_node_empty_name]
  rw [hres]
  refine ⟨rfl, add_node_makes_present hA, ?_⟩
  intro hnone hEq
  have h1 := add_node_makes_present hA
  rw [show gA = g from hEq, hnone] at h1
  simp at h1

/-- Witness for C10 at a fresh graph and source `f`. -/
theorem add_edge_error_after_mutation_witness :
    (add_edge CallGraph.empty "f" "" 1 "m" "").2
      = some (CGErr.callGraphError "Empty node name")
    ∧ (alistLookup (add_edge CallGraph.empty "f" "" 1 "m" "").1.cg "f").isSome = true
    ∧ (alistLookup CallGraph.empty.cg "f" = none →
        (add_edge CallGraph.empty "f" "" 1 "m" "").1 ≠ CallGraph.empty) :=
  add_edge_error_after_mutation CallGraph.empty "f" 1 "m" "" (by decide) (by decide)

/- ===================== C9 ===================== -/

/-- C9: `create_node` fails with a fatal `ImportManagerError` exactly when
the name is empty or a node with that name already exists; on success it
inserts a node with empty filename and empty import set and leaves every
other node unchanged — import-graph nodes are created exactly once. -/
theorem create_node_exactly_once :
    ∀ (im : ImportManager) (name : String),
      (name = "" → create_node im name = .error (.importManagerError "Invalid node name"))
      ∧ ((get_node im name).isSome = true → name ≠ "" →
          create_node im name
            = .error (.importManagerError "Can't create a node a second time"))
      ∧ (name ≠ "" → get_node im name = none →
          ∃ im2, create_node im name = .ok im2
            ∧ get_node im2 name = some ⟨"", ∅⟩
            ∧ ∀ k, k ≠ name → get_node im2 k = get_node im k) := by
  intro im name
  refine ⟨?_, ?_, ?_⟩
  · intro h
    subst h
    rfl
  · intro hsome hne
    unfold create_node
    rw [if_neg hne, if_pos hsome]
  · intro hne hnone
    refine ⟨{ im with import_graph := alistSet im.import_graph name ⟨"", ∅⟩ }, ?_, ?_, ?_⟩
    · unfold create_node
      rw [if_neg hne]
      have hnone2 : alistLookup im.import_graph name = none := hnone
      simp [get_node, hnone2]
    · exact alistLookup_set_self _ _ _
    · intro k hk
      exact alistLookup_set_ne _ _ (Ne.symm hk)

/-- Witness for C9: creation succeeds once on a fresh manager and fails on
re-creation for an existing node. -/
theorem create_node_exactly_once_witness :
    (∃ im2, create_node ImportManager.init "a" = .ok im2
      ∧ get_node im2 "a" = some ⟨"", ∅⟩
      ∧ ∀ k, k ≠ "a" → get_node im2 k = get_node ImportManager.init k)
    ∧ create_node im3 "pkg.sub.mod"
        = .error (.importManagerError "Can't create a node a second time") :=
  ⟨(create_node_exactly_once ImportManager.init "a").2.2 (by decide) rfl,
   (create_node_exactly_once im3 "pkg.sub.mod").2.1 rfl (by decide)⟩

/- ===================== helper lemmas: handle_import ===================== -/

theorem handle_import_level_err {im : ImportManager} {name : String} {level : Nat}
    (h : (pySplitChar '.' (_get_module_path im)).length < level) :
    _handle_import_level im name level = .error () := by
  unfold _handle_import_level
  rw [if_pos h]

theorem handle_import_of_level_err {env : ImpEnv} {w : ImpWorld} {im : ImportManager}
    {name : String} {level : Nat}
    (hroot : ((pySplitChar '.' name).headD "") ∉ env.builtins)
    (h : _handle_import_level im name level = .error ()) :
    handle_import env w im name level = (w, im, .ok none) := by
  unfold handle_import
  rw [if_neg hroot]
  simp only [h]

/-- With the logging always-failing importer and empty `sys.modules`, the
candidate loop attempts every candidate in order, extending the trace. -/
theorem tryCombos_log (im : ImportManager) (t : List (String × String))
    (l : List (String × String)) :
    tryCombos logEnv ⟨[], t⟩ im l = (⟨[], t ++ l⟩, im, none) := by
  induction l generalizing t with
  | nil => simp [tryCombos]
  | cons hd tl ih =>
    obtain ⟨mn, pkg⟩ := hd
    show tryCombos logEnv ⟨[], t⟩ im ((mn, pkg) :: tl) = _
    unfold tryCombos _do_import
    have h1 : logEnv.importModule ⟨[], t⟩ im mn pkg = (⟨[], t ++ [(mn, pkg)]⟩, im, none) := rfl
    simp only [alistLookup, h1]
    rw [ih (t ++ [(mn, pkg)])]
    simp

/- ===================== C3 ===================== -/

/-- C3: for the non-initializer module `pkg.sub.mod`, resolving name `x` at
level 1 yields base package `pkg.sub` (combined relative name `.x`) and the
joined candidate `pkg.sub.x`; at level 2 base `pkg` and candidate `pkg.x`;
the third candidate of the level-1 attempt list is exactly `pkg.sub.x`; and
any level exceeding the number of components that can be stripped (three for
`pkg.sub.mod`) makes `handle_import` return nothing, leaving all state
untouched — a non-fatal skip, not a crash. -/
theorem relative_import_arithmetic :
    _handle_import_level im3 "x" 1 = .ok (".x", "pkg.sub")
    ∧ _handle_import_level im3 "x" 2 = .ok ("..x", "pkg")
    ∧ join_ns "pkg.sub" "x" = "pkg.sub.x"
    ∧ join_ns "pkg" "x" = "pkg.x"
    ∧ combosOf ".x" "pkg.sub" "x"
        = [(".x", "pkg.sub"), ("", "pkg.sub"), ("pkg.sub.x", ""), ("pkg.sub", "")]
    ∧ (∀ (env : ImpEnv) (w : ImpWorld) (level : Nat),
        "x" ∉ env.builtins → 3 < level →
        handle_import env w im3 "x" level = (w, im3, .ok none)) := by
  refine ⟨rfl, rfl, rfl, rfl, rfl, ?_⟩
  intro env w level hb hl
  refine handle_import_of_level_err ?_ (handle_import_level_err ?_)
  · exact hb
  · exact hl

/-- Witness for C3: the skip branch evaluated at level 4 under the logging
environment. -/
theorem relative_import_arithmetic_witness :
    handle_import logEnv ⟨[], []⟩ im3 "x" 4 = (⟨[], []⟩, im3, .ok none) :=
  relative_import_arithmetic.2.2.2.2.2 logEnv ⟨[], []⟩ 4 (by decide) (by decide)

/- ===================== C5 ===================== -/

/-- After the candidate loop, the post-processing of `handle_import` only
inspects the found module: the world and manager components of the result
are those produced by the loop. -/
theorem handle_import_fst_snd {env : ImpEnv} {w : ImpWorld} {im : ImportManager}
    {name : String} {level : Nat} {mn pkg : String}
    (hroot : ((pySplitChar '.' name).headD "") ∉ env.builtins)
    (hlvl : _handle_import_level im name level = .ok (mn, pkg)) :
    (handle_import env w im name level).1 = (tryCombos env w im (combosOf mn pkg name)).1
    ∧ (handle_import env w im name level).2.1
        = (tryCombos env w im (combosOf mn pkg name)).2.1 := by
  unfold handle_import
  rw [if_neg hroot]
  simp only [hlvl]
  rcases htc : tryCombos env w im (combosOf mn pkg name) with ⟨w2, im2, mod⟩
  cases mod with
  | none => exact ⟨rfl, rfl⟩
  | some pm =>
    rcases pm with ⟨file⟩
    cases file with
    | none => exact ⟨rfl, rfl⟩
    | some f =>
      by_cases hf : f = ""
      · simp [hf]
      · simp only [if_neg hf]
        cases hd : im2.mod_dir with
        | none => exact ⟨rfl, rfl⟩
        | some d =>
          by_cases hin : pyInStr d f = true
          · simp [hin]
          · simp [hin]

/-- C5: for every non-builtin import with a valid level, `handle_import`
attempts exactly the four candidates of `combosOf` in order (shown by the
trace of an always-failing importer), returning nothing with no error when
all four fail; an importer succeeding at once stops after the first
candidate, one succeeding at the third attempt stops after three. -/
theorem handle_import_four_candidates :
    ∀ (im : ImportManager) (name : String) (level : Nat) (mn pkg : String) (pm : PyMod),
      _handle_import_level im name level = .ok (mn, pkg) →
      handle_import logEnv ⟨[], []⟩ im name level
        = (⟨[], combosOf mn pkg name⟩, im, .ok none)
      ∧ (handle_import (succEnv pm) ⟨[], []⟩ im name level).1.trace
          = (combosOf mn pkg name).take 1
      ∧ (handle_import (succAtEnv 3 pm) ⟨[], []⟩ im name level).1.trace
          = (combosOf mn pkg name).take 3 := by
  intro im name level mn pkg pm hlvl
  have hcomb : combosOf mn pkg name = (mn, pkg) ::
      [(pyJoinDot (pySplitChar '.' mn).dropLast, pkg),
       (join_ns pkg name, ""),
       (join_ns pkg (pyJoinDot (pySplitChar '.' name).dropLast), "")] := rfl
  refine ⟨?_, ?_, ?_⟩
  · have hroot : ((pySplitChar '.' name).headD "") ∉ logEnv.builtins := by
      simp [logEnv]
    unfold handle_import
    rw [if_neg hroot]
    simp only [hlvl]
    rw [tryCombos_log im [] (combosOf mn pkg name)]
    simp
  · have hroot : ((pySplitChar '.' name).headD "") ∉ (succEnv pm).builtins := by
      simp [succEnv]
    rw [(handle_import_fst_snd hroot hlvl).1, hcomb]
    unfold tryCombos _do_import
    have h1 : (succEnv pm).importModule ⟨[], []⟩ im mn pkg
        = (⟨[], [(mn, pkg)]⟩, im, some pm) := rfl
    simp only [alistLookup, h1]
    rfl
  · have hroot : ((pySplitChar '.' name).headD "") ∉ (succAtEnv 3 pm).builtins := by
      simp [succAtEnv]
    rw [(handle_import_fst_snd hroot hlvl).1, hcomb]
    have h1 : ∀ (t : List (String × String)) (c : String × String),
        t.length + 1 ≠ 3 →
        (succAtEnv 3 pm).importModule ⟨[], t⟩ im c.1 c.2
          = (⟨[], t ++ [c]⟩, im, none) := by
      intro t c ht
      show (if (t ++ [c]).length = 3 then _ else _) = _
      rw [List.length_append]
      simp only [List.length_singleton]
      rw [if_neg ht]
    have h3 : (succAtEnv 3 pm).importModule ⟨[], [(mn, pkg),
        (pyJoinDot (pySplitChar '.' mn).dropLast, pkg)]⟩ im (join_ns pkg name) ""
        = (⟨[], [(mn, pkg), (pyJoinDot (pySplitChar '.' mn).dropLast, pkg),
            (join_ns pkg name, "")]⟩, im, some pm) := rfl
    unfold tryCombos _do_import
    simp only [alistLookup, h1 [] (mn, pkg) (by simp), List.nil_append, List.cons_append]
    unfold tryCombos _do_import
    simp only [alistLookup,
      h1 [(mn, pkg)] (pyJoinDot (pySplitChar '.' mn).dropLast, pkg) (by simp),
      List.nil_append, List.cons_append]
    unfold tryCombos _do_import
    simp only [alistLookup, h3]
    rfl

/-- Witness for C5 at the level-1 import of `x` from `pkg.sub.mod`. -/
theorem handle_import_four_candidates_witness :
    handle_import logEnv ⟨[], []⟩ im3 "x" 1
      = (⟨[], combosOf ".x" "pkg.sub" "x"⟩, im3, .ok none)
    ∧ (handle_import (succEnv ⟨none⟩) ⟨[], []⟩ im3 "x" 1).1.trace
        = (combosOf ".x" "pkg.sub" "x").take 1
    ∧ (handle_import (succAtEnv 3 ⟨none⟩) ⟨[], []⟩ im3 "x" 1).1.trace
        = (combosOf ".x" "pkg.sub" "x").take 3 :=
  handle_import_four_candidates im3 "x" 1 ".x" "pkg.sub" ⟨none⟩ rfl

/- ===================== C4 ===================== -/

/-- C4 counterexample: with package root `/pkg` configured, the module found
for the import resolves to `/evil/pkg/m.py`, a path that does not lie under
the root — yet `handle_import` returns a canonical name rather than nothing,
because the code's check is substring containment (`self.mod_dir not in
mod.__file__`), not path containment. -/
theorem handle_import_root_substring_counter :
    handle_import logEnv w4 im4 "m" 0 = (w4, im4edge, .ok (some "/evil/pkg/m.py"))
    ∧ pathUnder "/pkg" "/evil/pkg/m.py" = false :=
  ⟨rfl, rfl⟩

/-- C4 (amended): for every import whose found module lacks a usable file
path, or for which a package root is configured that is not a substring of
the resolved path, `handle_import` returns nothing while returning the world
and manager exactly as the load attempt left them — so any edge recorded
during the attempt remains in the import graph.  Concretely, in the `w4b`
scenario the rejected attempt leaves the recorded edge `cur → m` behind. -/
theorem handle_import_reject_keeps_state :
    (∀ (env : ImpEnv) (w : ImpWorld) (im : ImportManager) (name : String)
        (level : Nat) (mn pkg : String) (w2 : ImpWorld) (im2 : ImportManager)
        (pm : PyMod),
        ((pySplitChar '.' name).headD "") ∉ env.builtins →
        _handle_import_level im name level = .ok (mn, pkg) →
        tryCombos env w im (combosOf mn pkg name) = (w2, im2, some pm) →
        (pm.file = none ∨ pm.file = some ""
          ∨ (∃ d f, pm.file = some f ∧ f ≠ "" ∧ im2.mod_dir = some d
              ∧ pyInStr d f = false)) →
        handle_import env w im name level = (w2, im2, .ok none))
    ∧ handle_import logEnv w4b im4 "m" 0 = (w4b, im4edge, .ok none)
    ∧ (get_node im4edge "cur").map INode.imports = some (insert "m" ∅) := by
  refine ⟨?_, rfl, rfl⟩
  intro env w im name level mn pkg w2 im2 pm hroot hlvl htc hrej
  unfold handle_import
  rw [if_neg hroot]
  simp only [hlvl, htc]
  rcases hrej with hf | hf | ⟨d, f, hf, hfne, hd, hin⟩
  · rw [hf]
  · rw [hf]
    simp
  · rw [hf]
    simp only [if_neg hfne]
    rw [hd]
    simp [hin]

/-- Witness for C4: the general rejection conjunct applied to the `w4b`
scenario, where the path `/evil/other/m.py` does not contain the root
`/pkg`. -/
theorem handle_import_reject_keeps_state_witness :
    handle_import logEnv w4b im4 "m" 0 = (w4b, im4edge, .ok none) :=
  handle_import_reject_keeps_state.1 logEnv w4b im4 "m" 0 "m" "" w4b im4edge
    ⟨some "/evil/other/m.py"⟩ (by decide) rfl rfl
    (Or.inr (Or.inr ⟨"/pkg", "/evil/other/m.py", rfl, by decide, rfl, rfl⟩))

/- ===================== C1 ===================== -/

theorem extract_state_eq (g : DriverState) : extract_state g = g.facts := by
  rcases g with ⟨im, sys, ⟨d, s, c⟩, st⟩
  unfold extract_state
  refine congrArg₂ (fun x y => Snapshot.mk x y _) ?_ ?_ |>.trans (congrArg _ ?_)
  · induction d with
    | nil => rfl
    | cons a t ih =>
      obtain ⟨k, ⟨n1, l1⟩⟩ := a
      simp [ih]
  · induction s with
    | nil => rfl
    | cons a t ih =>
      obtain ⟨k, v⟩ := a
      simp [ih]
  · induction c with
    | nil => rfl
    | cons a t ih =>
      obtain ⟨k, v⟩ := a
      simp [ih]

/-- C1 counterexample: a driver state whose prior snapshot holds a
definition key `a` that the current fact stores lack still converges —
`has_converged` never inspects keys that are only in the prior snapshot, so
a key present in only one of the two snapshots does not force `false`. -/
theorem has_converged_prior_only_key :
    has_converged gC1 = true
    ∧ gC1.state = some { defs := [("a", ⟨∅, ∅⟩)], scopes := [], classes := [] }
    ∧ alistLookup (extract_state gC1).defs "a" = none :=
  ⟨rfl, rfl, rfl⟩

/-- C1 (amended): `has_converged` returns `true` only when every definition,
scope and class entry of the *current* snapshot is present in the prior
snapshot with equal name-pointee and literal-pointee sets, bound-namespace
set, and ancestor list respectively (a key present only in the prior
snapshot is not examined); taking two consecutive snapshots with no analysis
pass run between them yields `has_converged() = true`. -/
theorem has_converged_characterization :
    (∀ (g : DriverState) (st : Snapshot), g.state = some st →
        has_converged g = true →
        (∀ k d, (k, d) ∈ g.facts.defs → alistLookup st.defs k = some d)
        ∧ (∀ k s, (k, s) ∈ g.facts.scopes → alistLookup st.scopes k = some s)
        ∧ (∀ k c, (k, c) ∈ g.facts.classes → alistLookup st.classes k = some c))
    ∧ (∀ g : DriverState,
        nodupKeys g.facts.defs → nodupKeys g.facts.scopes →
        nodupKeys g.facts.classes →
        has_converged { g with state := some (extract_state g) } = true) := by
  constructor
  · intro g st hst hc
    unfold has_converged at hc
    rw [hst, extract_state_eq] at hc
    rw [Bool.and_eq_true, Bool.and_eq_true] at hc
    obtain ⟨⟨hA, hB⟩, hC⟩ := hc
    refine ⟨?_, ?_, ?_⟩
    · intro k d hmem
      have := List.all_eq_true.mp hA (k, d) hmem
      cases hl : alistLookup st.defs k with
      | none => rw [hl] at this; cases this
      | some d2 =>
        rw [hl] at this
        rw [Bool.and_eq_true, decide_eq_true_eq, decide_eq_true_eq] at this
        obtain ⟨e1, e2⟩ := this
        cases d; cases d2
        simp only at e1 e2
        rw [e1, e2]
    · intro k s hmem
      have := List.all_eq_true.mp hB (k, s) hmem
      cases hl : alistLookup st.scopes k with
      | none => rw [hl] at this; cases this
      | some s2 =>
        rw [hl] at this
        rw [decide_eq_true_eq] at this
        rw [← this]
    · intro k c hmem
      have := List.all_eq_true.mp hC (k, c) hmem
      cases hl : alistLookup st.classes k with
      | none => rw [hl] at this; cases this
      | some c2 =>
        rw [hl] at this
        rw [decide_eq_true_eq] at this
        rw [← this]
  · intro g h1 h2 h3
    unfold has_converged
    have hfacts : extract_state { g with state := some (extract_state g) }
        = g.facts := extract_state_eq _
    rw [show ({ g with state := some (extract_state g) } : DriverState).state
        = some (extract_state g) from rfl, hfacts, extract_state_eq]
    rw [Bool.and_eq_true, Bool.and_eq_true]
    refine ⟨⟨?_, ?_⟩, ?_⟩
    · refine List.all_eq_true.mpr ?_
      rintro ⟨k, d⟩ hmem
      rw [alistLookup_of_mem h1 hmem]
      simp
    · refine List.all_eq_true.mpr ?_
      rintro ⟨k, s⟩ hmem
      rw [alistLookup_of_mem h2 hmem]
      simp
    · refine List.all_eq_true.mpr ?_
      rintro ⟨k, c⟩ hmem
      rw [alistLookup_of_mem h3 hmem]
      simp

/-- Witness for C1: the consecutive-snapshot property at a concrete state,
and the soundness direction applied to the resulting convergent state. -/
theorem has_converged_characterization_witness :
    has_converged { gW with state := some (extract_state gW) } = true
    ∧ (∀ k d, (k, d) ∈ gW.facts.defs
        → alistLookup (extract_state gW).defs k = some d) :=
  ⟨has_converged_characterization.2 gW (by simp [nodupKeys, gW])
      (by simp [nodupKeys, gW]) (by simp [nodupKeys, gW]),
   (has_converged_characterization.1 { gW with state := some (extract_state gW) }
      (extract_state gW) rfl
      (has_converged_characterization.2 gW (by simp [nodupKeys, gW])
        (by simp [nodupKeys, gW]) (by simp [nodupKeys, gW]))).1⟩

/- ===================== C2 ===================== -/

theorem stage2_cond_zero (iterCnt : Nat) (g : DriverState) :
    stage2_cond 0 iterCnt g = false := by
  unfold stage2_cond
  have h1 : ¬((0 : Int) < 0) := by omega
  have h2 : ¬((iterCnt : Int) < 0) := by omega
  simp [h1, h2]

theorem stage2_loop_zero (env : AnalyzeEnv) (entries : List String)
    (package : String) (fuel iterCnt : Nat) (g : DriverState) :
    stage2_loop env entries package 0 fuel iterCnt g = (g, iterCnt, none) := by
  cases fuel with
  | zero => rfl
  | succ f =>
    conv_lhs => rw [stage2_loop]
    rw [stage2_cond_zero]
    simp

/-- C2: the Stage-2 loop iterates exactly while
`(max_iter < 0 or iter_cnt < max_iter) and not has_converged()` — within the
examined fuel, the loop takes a step exactly when `stage2_cond` holds and
stops (without error) when it does not; with `max_iter = 0` it performs zero
iterations (hitting the cap is not an error), and the whole run then equals
the spec-level pipeline that goes directly from Stage-1 state to the Stage-3
terminal pass. -/
theorem stage2_loop_guard_and_zero_iter :
    (∀ (env : AnalyzeEnv) (entries : List String) (package : String)
        (maxIter : Int) (fuel iterCnt : Nat) (g : DriverState),
        stage2_cond maxIter iterCnt g = false →
        stage2_loop env entries package maxIter (fuel + 1) iterCnt g
          = (g, iterCnt, none))
    ∧ (∀ (env : AnalyzeEnv) (entries : List String) (package : String)
        (maxIter : Int) (fuel iterCnt : Nat) (g g4 : DriverState),
        stage2_cond maxIter iterCnt g = true →
        stage2_body env entries package g = (g4, none) →
        stage2_loop env entries package maxIter (fuel + 1) iterCnt g
          = stage2_loop env entries package maxIter fuel (iterCnt + 1) g4)
    ∧ (∀ (env : AnalyzeEnv) (entries : List String) (package : String)
        (fuel iterCnt : Nat) (g : DriverState),
        stage2_loop env entries package 0 fuel iterCnt g = (g, iterCnt, none))
    ∧ (∀ (env : AnalyzeEnv) (entries : List String) (package : String)
        (operation : String) (fuel : Nat) (g : DriverState),
        analyze env entries package 0 operation fuel g
          = analyzeZeroIterSpec env entries package operation g) := by
  refine ⟨?_, ?_, ?_, ?_⟩
  · intro env entries package maxIter fuel iterCnt g hc
    conv_lhs => rw [stage2_loop]
    rw [hc]
    simp
  · intro env entries package maxIter fuel iterCnt g g4 hc hb
    conv_lhs => rw [stage2_loop]
    rw [hc, hb]
    simp
  · intro env entries package fuel iterCnt g
    exact stage2_loop_zero env entries package fuel iterCnt g
  · intro env entries package operation fuel g
    unfold analyze analyzeZeroIterSpec
    rcases hp : do_pass env env.preProc true package entries g with ⟨g1, err⟩
    cases err with
    | some e => rfl
    | none =>
      simp only [stage2_loop_zero]

/-- Witness for C2 with the inert environment: the guard is false at a
converged-free state with cap 0, one guarded step under cap 1, and the
zero-cap run equals the direct Stage-1-to-Stage-3 pipeline. -/
theorem stage2_loop_guard_and_zero_iter_witness :
    stage2_loop envD [] "" 0 1 0 gD0 = (gD0, 0, none)
    ∧ stage2_loop envD [] "" 1 1 0 gD0
        = stage2_loop envD [] "" 1 0 1 { gD0 with state := some Snapshot.empty }
    ∧ analyze envD ["e"] "p" 0 "call-graph" 5 gD0
        = analyzeZeroIterSpec envD ["e"] "p" "call-graph" gD0 :=
  ⟨stage2_loop_guard_and_zero_iter.1 envD [] "" 0 0 0 gD0 rfl,
   stage2_loop_guard_and_zero_iter.2.1 envD [] "" 1 0 0 gD0
     { gD0 with state := some Snapshot.empty } rfl rfl,
   stage2_loop_guard_and_zero_iter.2.2.2 envD ["e"] "p" "call-graph" 5 gD0⟩

/- ===================== C7 ===================== -/

theorem pairedPerEntry_cons (m : String) (l : List HookEvent) :
    pairedPerEntry (HookEvent.installEvt :: HookEvent.passRun m ::
      HookEvent.removeEvt :: l) = pairedPerEntry l := rfl

/-- C7 counterexample: a pass that raises under installed hooks leaves the
interception installed — `do_pass` has no `finally`, so removal does not
happen on the exception path and the event log is not paired. -/
theorem do_pass_raise_leaves_hooks :
    do_pass envD passRaise true "p" ["e"] gD0 = (gD1, some "pass raised")
    ∧ gD1.sys.pathHooks = [()]
    ∧ pairedPerEntry gD1.sys.events = false :=
  ⟨rfl, rfl, rfl⟩

/-- C7 (amended): in a hook-enabled stage whose passes all return normally
and do not touch the process-wide lookup state, interception install and
removal are strictly paired around each individual entry point's pass
invocation (the event log is a sequence of install/pass/remove triples, not
one bracket for the whole stage) and `sys.path_hooks` / `sys.path` are
restored exactly; but when a pass raises, the hooks are left installed (see
the counterexample) — removal is not guaranteed on every exit path. -/
theorem do_pass_hook_pairing :
    ∀ (env : AnalyzeEnv) (proc : PassFn) (package : String)
      (entries : List String) (analyzed : Finset String) (g : DriverState),
      (∀ f m a g0, ((proc f m a g0).1).sys = g0.sys) →
      (∀ f m a g0, ((proc f m a g0).1).im.old_path_hooks = g0.im.old_path_hooks
          ∧ ((proc f m a g0).1).im.old_path = g0.im.old_path) →
      (∀ f m a g0, ∃ mods, (proc f m a g0).2 = .ok mods) →
      (do_pass_go env proc true package entries analyzed g).2 = none
      ∧ ((do_pass_go env proc true package entries analyzed g).1).sys.pathHooks
          = g.sys.pathHooks
      ∧ ((do_pass_go env proc true package entries analyzed g).1).sys.path
          = g.sys.path
      ∧ ∃ suffix, ((do_pass_go env proc true package entries analyzed g).1).sys.events
          = g.sys.events ++ suffix ∧ pairedPerEntry suffix = true := by
  intro env proc package entries
  induction entries with
  | nil =>
    intro analyzed g hsys hold hok
    exact ⟨rfl, rfl, rfl, [], (List.append_nil g.sys.events).symm, rfl⟩
  | cons e rest ih =>
    intro analyzed g hsys hold hok
    by_cases h1 : _get_mod_name env e package = ""
    · have hstep : do_pass_go env proc true package (e :: rest) analyzed g
          = do_pass_go env proc true package rest analyzed g := by
        conv_lhs => rw [do_pass_go]
        rw [if_pos h1]
      rw [hstep]
      exact ih analyzed g hsys hold hok
    · by_cases h2 : _get_mod_name env e package ∈ analyzed
      · have hstep : do_pass_go env proc true package (e :: rest) analyzed g
            = do_pass_go env proc true package rest analyzed g := by
          conv_lhs => rw [do_pass_go]
          rw [if_neg h1, if_pos h2]
        rw [hstep]
        exact ih analyzed g hsys hold hok
      · rcases hpr : proc (env.abspath e) (_get_mod_name env e package) analyzed
            { g with
              im := { g.im with
                      mod_dir := some (if package = ""
                        then env.dirname (env.abspath e) else package),
                      old_path_hooks := some g.sys.pathHooks,
                      old_path := some g.sys.path },
              sys := { pathHooks := () :: g.sys.pathHooks,
                       path := (if package = ""
                         then env.dirname (env.abspath e) else package) :: g.sys.path,
                       events := (g.sys.events ++ [HookEvent.installEvt])
                         ++ [HookEvent.passRun (_get_mod_name env e package)] } }
          with ⟨g3, r⟩
        obtain ⟨mods, hm⟩ := hok (env.abspath e) (_get_mod_name env e package) analyzed
            { g with
              im := { g.im with
                      mod_dir := some (if package = ""
                        then env.dirname (env.abspath e) else package),
                      old_path_hooks := some g.sys.pathHooks,
                      old_path := some g.sys.path },
              sys := { pathHooks := () :: g.sys.pathHooks,
                       path := (if package = ""
                         then env.dirname (env.abspath e) else package) :: g.sys.path,
                       events := (g.sys.events ++ [HookEvent.installEvt])
                         ++ [HookEvent.passRun (_get_mod_name env e package)] } }
        rw [hpr] at hm
        simp only at hm
        subst hm
        have hg3sys := hsys (env.abspath e) (_get_mod_name env e package) analyzed
            { g with
              im := { g.im with
                      mod_dir := some (if package = ""
                        then env.dirname (env.abspath e) else package),
                      old_path_hooks := some g.sys.pathHooks,
                      old_path := some g.sys.path },
              sys := { pathHooks := () :: g.sys.pathHooks,
                       path := (if package = ""
                         then env.dirname (env.abspath e) else package) :: g.sys.path,
                       events := (g.sys.events ++ [HookEvent.installEvt])
                         ++ [HookEvent.passRun (_get_mod_name env e package)] } }
        have hg3old := hold (env.abspath e) (_get_mod_name env e package) analyzed
            { g with
              im := { g.im with
                      mod_dir := some (if package = ""
                        then env.dirname (env.abspath e) else package),
                      old_path_hooks := some g.sys.pathHooks,
                      old_path := some g.sys.path },
              sys := { pathHooks := () :: g.sys.pathHooks,
                       path := (if package = ""
                         then env.dirname (env.abspath e) else package) :: g.sys.path,
                       events := (g.sys.events ++ [HookEvent.installEvt])
                         ++ [HookEvent.passRun (_get_mod_name env e package)] } }
        rw [hpr] at hg3sys hg3old
        simp only at hg3sys hg3old
        have hstep0 : do_pass_go env proc true package (e :: rest) analyzed g
            = (match proc (env.abspath e) (_get_mod_name env e package) analyzed
                { g with
              im := { g.im with
                      mod_dir := some (if package = ""
                        then env.dirname (env.abspath e) else package),
                      old_path_hooks := some g.sys.pathHooks,
                      old_path := some g.sys.path },
              sys := { pathHooks := () :: g.sys.pathHooks,
                       path := (if package = ""
                         then env.dirname (env.abspath e) else package) :: g.sys.path,
                       events := (g.sys.events ++ [HookEvent.installEvt])
                         ++ [HookEvent.passRun (_get_mod_name env e package)] } } with
               | (g3, Except.error err) => (g3, some err)
               | (g3, Except.ok mods) =>
                   do_pass_go env proc true package rest (analyzed ∪ mods)
                     { g3 with im := (remove_hooks g3.im g3.sys).1,
                               sys := (remove_hooks g3.im g3.sys).2 }) := by
          conv_lhs => rw [do_pass_go]
          rw [if_neg h1, if_neg h2]
          exact rfl
        rw [hstep0]
        simp only [hpr, remove_hooks]
        obtain ⟨hErr, hHooks, hPath, suffix, hEv, hPaired⟩ :=
          ih (analyzed ∪ mods)
            { g3 with
              im := g3.im,
              sys := { pathHooks := g3.im.old_path_hooks.getD [],
                       path := g3.im.old_path.getD [],
                       events := g3.sys.events ++ [HookEvent.removeEvt] } }
            hsys hold hok
        refine ⟨hErr, ?_, ?_, ?_⟩
        · rw [hHooks]
          simp only [hg3old.1]
          rfl
        · rw [hPath]
          simp only [hg3old.2]
          rfl
        · refine ⟨HookEvent.installEvt ::
            HookEvent.passRun (_get_mod_name env e package) ::
            HookEvent.removeEvt :: suffix, ?_, ?_⟩
          · rw [hEv]
            simp only [hg3sys]
            simp [List.append_assoc]
          · rw [pairedPerEntry_cons]
            exact hPaired


/-- Witness for C7: two entries, each producing its own
install/pass/remove bracket, with hooks fully restored afterwards. -/
theorem do_pass_hook_pairing_witness :
    (do_pass_go envD passOk true "p" ["e1", "e2"] ∅ gD0).2 = none
    ∧ ((do_pass_go envD passOk true "p" ["e1", "e2"] ∅ gD0).1).sys.pathHooks
        = gD0.sys.pathHooks
    ∧ ((do_pass_go envD passOk true "p" ["e1", "e2"] ∅ gD0).1).sys.path
        = gD0.sys.path
    ∧ ∃ suffix, ((do_pass_go envD passOk true "p" ["e1", "e2"] ∅ gD0).1).sys.events
        = gD0.sys.events ++ suffix ∧ pairedPerEntry suffix = true :=
  do_pass_hook_pairing envD passOk "p" ["e1", "e2"] ∅ gD0
    (fun _ _ _ _ => rfl) (fun _ _ _ _ => ⟨rfl, rfl⟩) (fun _ _ _ _ => ⟨∅, rfl⟩)

end PyCG
